import Mathlib

/-!
Shallow embedding of the core image-processing pipeline of the
music-score-tool repository: the `processSingleImage` function of the most
complete (V3) variant, source lines 83–351, together with theorems checking
the natural-language specification against it.

Modelling conventions:

* JavaScript numbers are modelled as exact rationals (`ℚ`).  The pipeline's
  arithmetic on the values under check is exact, so no floating-point
  rounding is modelled.  Writes into the canvas `Uint8ClampedArray` quantize
  channel values to integers in 0–255; the specification speaks about the
  computed whiteness/alpha/colour values, so buffers carry the computed
  rational channels.
* A canvas pixel buffer is an `Img`: a width, a height and a total pixel
  function (row-major `data[(y*w+x)*4 + c]` access in the source becomes
  `pix x y` here; the flat-index arithmetic itself is modelled separately by
  `pixelIndex` / `imageDataLength`).
* The two browser primitives that are not part of the source code — the
  high-quality `drawImage` resampling filter and the CSS `blur(r)` filter —
  enter the model as function parameters, so every theorem holds for every
  possible behaviour of those filters.
* Assigning a JavaScript number to `canvas.width` / `canvas.height`
  (WebIDL `unsigned long`) and passing it to `getImageData` (WebIDL `long`)
  truncates the number toward zero; `canvasDim` models this for the
  nonnegative values that arise in the pipeline.
-/

namespace MusicScoreTool

/-- An RGBA pixel; channels are the computed JavaScript number values. -/
structure Pixel where
  r : ℚ
  g : ℚ
  b : ℚ
  a : ℚ
deriving DecidableEq

/-- A canvas pixel buffer: dimensions plus a total pixel-lookup function. -/
structure Img where
  width : ℕ
  height : ℕ
  pix : ℕ → ℕ → Pixel

/-- Processing algorithm selector (source `Settings.algorithm`). -/
inductive Algorithm
  | classic
  | adaptive
deriving DecidableEq

/-- An already-parsed RGB background colour.  Source lines 143–149 parse the
`'#RRGGBB'` string field into `bgR`, `bgG`, `bgB` (defaulting to white); the
spec's data model likewise makes `backgroundColor` an RGB triple. -/
structure Color where
  r : ℕ
  g : ℕ
  b : ℕ
deriving DecidableEq

/-- The settings record destructured at source lines 89–102.  Paddings are
the integer pixel counts the sliders produce; `backgroundColor` is modelled
as the parsed RGB triple (see `Color`). -/
structure Settings where
  algorithm : Algorithm
  threshold : ℚ
  contrastBoost : ℚ
  scaleMultiplier : ℚ
  smoothness : ℚ
  autoCrop : Bool
  paddingTop : ℕ
  paddingRight : ℕ
  paddingBottom : ℕ
  paddingLeft : ℕ
  backgroundColor : Color
  isTransparent : Bool
deriving DecidableEq

/-- Error kinds of the processing contract.  The only `throw`s in the source
are canvas-context acquisition failures (environment conditions outside the
data model); in particular the source performs no settings-range validation,
so the embedded `process` below never produces `invalidSettings`. -/
inductive ProcessingError
  | decodeFailed
  | bufferAllocationFailed
  | invalidSettings
deriving DecidableEq

/-- Result of one invocation: the processed buffer and the synchronized crop
of the pristine rescaled original (source `resolve` at lines 340–343). -/
structure ProcessResult where
  processed : Img
  croppedOriginal : Img

/-- Truncation performed when a JavaScript number is assigned to a canvas
dimension (WebIDL `unsigned long` conversion, truncation toward zero; the
wraparound for negative or huge values does not arise here). -/
def canvasDim (q : ℚ) : ℕ := (⌊q⌋).toNat

/-- Soft-threshold helper, source lines 133–140. -/
def getSoftVal (val thresh smooth : ℚ) : ℚ :=
  if smooth = 0 then (if val < thresh then 0 else 255)
  else
    let lower := thresh - smooth
    let upper := thresh + smooth
    if val ≤ lower then 0
    else if upper ≤ val then 255
    else ((val - lower) / (upper - lower)) * 255

/-- Background colour actually used: source lines 143–149 leave the default
white triple in place when `isTransparent` is set (the hex string is parsed
only when `!isTransparent`). -/
def effectiveBg (s : Settings) : Color :=
  if s.isTransparent then ⟨255, 255, 255⟩ else s.backgroundColor

/-- Adaptive whiteness of one pixel, source lines 168–174: the raw red value
is soft-thresholded against the blurred background estimate shifted by the
sensitivity offset. -/
def adaptiveWhiteness (s : Settings) (r bgEstimate : ℚ) : ℚ :=
  let sensitivityOffset := (100 - s.threshold) / 2
  let localThreshold := bgEstimate - sensitivityOffset
  getSoftVal r localThreshold s.smoothness

/-- Classic-path ink boost, source lines 194–199. -/
def classicBoostedValue (s : Settings) (r : ℚ) : ℚ :=
  let boostFactor := s.contrastBoost / 100
  if r < s.threshold + 40 then r * (1 - boostFactor) else r

/-- Classic whiteness of one pixel, source line 200. -/
def classicWhiteness (s : Settings) (r : ℚ) : ℚ :=
  getSoftVal (classicBoostedValue s r) s.threshold s.smoothness

/-- Whiteness computed for a pixel with red channel `r`, per algorithm. -/
def whitenessOf (s : Settings) (bgEstimate r : ℚ) : ℚ :=
  match s.algorithm with
  | .adaptive => adaptiveWhiteness s r bgEstimate
  | .classic => classicWhiteness s r

/-- Compositing of a whiteness value, source lines 177–191 and 203–213 (the
transparent / opaque write-back shared by both algorithm branches). -/
def compositeFromWhiteness (s : Settings) (bg : Color) (whiteness : ℚ) : Pixel :=
  let t := whiteness / 255
  if s.isTransparent then ⟨0, 0, 0, 255 - whiteness⟩
  else ⟨(bg.r : ℚ) * t, (bg.g : ℚ) * t, (bg.b : ℚ) * t, 255⟩

/-- Full per-pixel threshold-and-composite step of the main loop
(source lines 167–215). -/
def compositePixel (s : Settings) (bg : Color) (bgEstimate : ℚ) (p : Pixel) : Pixel :=
  compositeFromWhiteness s bg (whitenessOf s bgEstimate p.r)

/-- Source line 105: `targetWidth = originalWidth * scaleMultiplier`. -/
def targetWidthQ (img : Img) (s : Settings) : ℚ :=
  (img.width : ℚ) * s.scaleMultiplier

/-- Source line 106: `scaleFactor = targetWidth / originalWidth`. -/
def scaleFactorQ (img : Img) (s : Settings) : ℚ :=
  targetWidthQ img s / (img.width : ℚ)

/-- Source line 107: `scaledHeight = img.height * scaleFactor`. -/
def scaledHeightQ (img : Img) (s : Settings) : ℚ :=
  (img.height : ℚ) * scaleFactorQ img s

/-- Width of every working canvas (source lines 111, 123, 154). -/
def targetW (img : Img) (s : Settings) : ℕ := canvasDim (targetWidthQ img s)

/-- Height of every working canvas (source lines 112, 124, 155). -/
def targetH (img : Img) (s : Settings) : ℕ := canvasDim (scaledHeightQ img s)

/-- The pristine rescaled copy of the source (source lines 110–119), with the
browser's resampling filter supplied as the parameter `resample`. -/
def scaledBuffer (resample : Img → ℕ → ℕ → ℕ → ℕ → Pixel)
    (img : Img) (s : Settings) : Img :=
  ⟨targetW img s, targetH img s, resample img (targetW img s) (targetH img s)⟩

/-- Background estimate read in the adaptive branch (source lines 153–165 and
169): the red channel of the source image drawn at target size through the
persisting CSS `blur(20 * scaleMultiplier)` filter, supplied as `blur`. -/
def bgEstimateFn (blur : ℚ → Img → ℕ → ℕ → ℕ → ℕ → Pixel)
    (img : Img) (s : Settings) : ℕ → ℕ → ℚ :=
  fun x y => (blur (20 * s.scaleMultiplier) img (targetW img s) (targetH img s) x y).r

/-- The composited working buffer: the clone of the scaled canvas (source
line 127) rewritten pixel-by-pixel by the main loop (source lines 151–215). -/
def compositedBuffer (resample : Img → ℕ → ℕ → ℕ → ℕ → Pixel)
    (blur : ℚ → Img → ℕ → ℕ → ℕ → ℕ → Pixel)
    (img : Img) (s : Settings) : Img :=
  ⟨targetW img s, targetH img s, fun x y =>
    compositePixel s (effectiveBg s) (bgEstimateFn blur img s x y)
      ((scaledBuffer resample img s).pix x y)⟩

/-- Content test of the bounding-box scan, source lines 233–264. -/
def isContentPixel (s : Settings) (bg : Color) (p : Pixel) : Bool :=
  if s.isTransparent then decide (10 < p.a)
  else decide (30 < |p.r - (bg.r : ℚ)| + |p.g - (bg.g : ℚ)| + |p.b - (bg.b : ℚ)|)

/-- Bounding-box accumulator of the scan (source lines 225–226). -/
structure BBox where
  minX : ℕ
  minY : ℕ
  maxX : ℕ
  maxY : ℕ
  hasContent : Bool
deriving DecidableEq

/-- Row-major coordinate list of the scan's two nested loops
(source lines 228–229): `y` outer from 0, `x` inner from 0. -/
def scanCoords (w h : ℕ) : List (ℕ × ℕ) :=
  (List.range h).flatMap fun y => (List.range w).map fun x => (x, y)

/-- One iteration of the scan body (source lines 267–273). -/
def scanStep (content : ℕ → ℕ → Bool) (acc : BBox) (c : ℕ × ℕ) : BBox :=
  if content c.1 c.2 then
    ⟨min c.1 acc.minX, min c.2 acc.minY, max c.1 acc.maxX, max c.2 acc.maxY, true⟩
  else acc

/-- Content test at coordinates `(x, y)` of a buffer (the scan body applies
`isContentPixel` to `data[idx .. idx+3]`, source lines 230–264). -/
def contentAt (s : Settings) (bg : Color) (B : Img) (x y : ℕ) : Bool :=
  isContentPixel s bg (B.pix x y)

/-- The full bounding-box scan over a composited buffer (source lines
224–275), starting from `minX = targetWidth`, `minY = scaledHeight`,
`maxX = maxY = 0`, `hasContent = false`. -/
def findContentBBox (s : Settings) (bg : Color) (B : Img) : BBox :=
  (scanCoords B.width B.height).foldl
    (scanStep (contentAt s bg B))
    ⟨B.width, B.height, 0, 0, false⟩

/-- Coordinates the scan classifies as content, in scan order (an auxiliary
notion used to state and prove properties of `findContentBBox`). -/
def contentCoords (s : Settings) (bg : Color) (B : Img) : List (ℕ × ℕ) :=
  (scanCoords B.width B.height).filter fun c => contentAt s bg B c.1 c.2

/-- Pixel colour a freshly assembled output canvas is filled with: the
background colour via `fillRect` when opaque, fully transparent black via
`clearRect` when transparent (source lines 292–297 and 316–321). -/
def fillPixel (s : Settings) (bg : Color) : Pixel :=
  if s.isTransparent then ⟨0, 0, 0, 0⟩ else ⟨(bg.r : ℚ), (bg.g : ℚ), (bg.b : ℚ), 255⟩

/-- Source-over alpha compositing performed by `drawImage` onto the already
filled destination (alphas on the 0–255 scale; a fully transparent result is
stored as zeros). -/
def sourceOver (dst src : Pixel) : Pixel :=
  let sa := src.a / 255
  let da := dst.a / 255
  let oa := sa + da * (1 - sa)
  if oa = 0 then ⟨0, 0, 0, 0⟩
  else ⟨(src.r * sa + dst.r * da * (1 - sa)) / oa,
        (src.g * sa + dst.g * da * (1 - sa)) / oa,
        (src.b * sa + dst.b * da * (1 - sa)) / oa,
        oa * 255⟩

/-- Allocate-fill-blit sequence of the crop-and-pad assembler (source lines
278–302 for the processed buffer, 306–327 for the cropped original): a
`(contentWidth + paddingLeft + paddingRight) × (contentHeight + paddingTop +
paddingBottom)` canvas, filled with `fillPixel`, with the bounding-box region
of `source` drawn at offset `(paddingLeft, paddingTop)`. -/
def assembleCropped (s : Settings) (bg : Color) (source : Img) (box : BBox) : Img :=
  let contentWidth := box.maxX - box.minX + 1
  let contentHeight := box.maxY - box.minY + 1
  let finalWidth := contentWidth + s.paddingLeft + s.paddingRight
  let finalHeight := contentHeight + s.paddingTop + s.paddingBottom
  ⟨finalWidth, finalHeight, fun x y =>
    if s.paddingLeft ≤ x ∧ x < s.paddingLeft + contentWidth ∧
        s.paddingTop ≤ y ∧ y < s.paddingTop + contentHeight then
      sourceOver (fillPixel s bg)
        (source.pix (box.minX + (x - s.paddingLeft)) (box.minY + (y - s.paddingTop)))
    else fillPixel s bg⟩

/-- The whole pipeline (source lines 104–343): rescale, threshold and
composite, then either return the full frames (`autoCrop` off, lines
334–338), assemble the synchronized crops (content found, lines 277–328), or
fall back to the full frames (no content, lines 329–333). -/
def processResult (resample : Img → ℕ → ℕ → ℕ → ℕ → Pixel)
    (blur : ℚ → Img → ℕ → ℕ → ℕ → ℕ → Pixel)
    (img : Img) (s : Settings) : ProcessResult :=
  let bg := effectiveBg s
  let scaled := scaledBuffer resample img s
  let composited := compositedBuffer resample blur img s
  if s.autoCrop then
    let box := findContentBBox s bg composited
    if box.hasContent then
      ⟨assembleCropped s bg composited box, assembleCropped s bg scaled box⟩
    else ⟨composited, scaled⟩
  else ⟨composited, scaled⟩

/-- The external contract `process : (source, settings) → Result`.  The
source rejects a job only on canvas-context acquisition failure (an
environment condition outside the data model); it contains no settings
validation, so the embedding always returns `Except.ok`. -/
def process (resample : Img → ℕ → ℕ → ℕ → ℕ → Pixel)
    (blur : ℚ → Img → ℕ → ℕ → ℕ → ℕ → Pixel)
    (img : Img) (s : Settings) : Except ProcessingError ProcessResult :=
  .ok (processResult resample blur img s)

/-- Length of the `Uint8ClampedArray` returned by `getImageData` for a
`w × h` region: four samples per pixel. -/
def imageDataLength (w h : ℕ) : ℕ := w * h * 4

/-- Flat buffer index of channel 0 of pixel `(x, y)` as computed by the scan
(source line 230: `idx = (y * targetWidth + x) * 4`) for integer loop
variables and an integer `targetWidth`. -/
def pixelIndex (w x y : ℕ) : ℕ := (y * w + x) * 4

/-- Flat buffer index exactly as the scan computes it when `targetWidth` is a
non-integer JavaScript number (source line 230 with fractional `tw`). -/
def jsScanIndex (tw : ℚ) (x y : ℚ) : ℚ := (y * tw + x) * 4

/-! Concrete fixtures used to witness the theorems on explicit inputs. -/

/-- Fully opaque black test pixel. -/
def blackPixel : Pixel := ⟨0, 0, 0, 255⟩

/-- Fully opaque white test pixel. -/
def whitePixel : Pixel := ⟨255, 255, 255, 255⟩

/-- Resampling filter producing a constant image (one possible behaviour of
the browser's `drawImage`). -/
def constResample (p : Pixel) : Img → ℕ → ℕ → ℕ → ℕ → Pixel :=
  fun _ _ _ _ _ => p

/-- Blur filter producing a constant image (one possible behaviour of the
browser's CSS blur). -/
def constBlur (p : Pixel) : ℚ → Img → ℕ → ℕ → ℕ → ℕ → Pixel :=
  fun _ _ _ _ _ _ => p

/-- A 1 × 1 all-black source image. -/
def blackImg1 : Img := ⟨1, 1, fun _ _ => blackPixel⟩

/-- A 1 × 1 all-white source image. -/
def whiteImg1 : Img := ⟨1, 1, fun _ _ => whitePixel⟩

/-- A 2 × 1 all-white source image. -/
def whiteImg2x1 : Img := ⟨2, 1, fun _ _ => whitePixel⟩

/-- White background colour. -/
def whiteColor : Color := ⟨255, 255, 255⟩

/-- Classic-algorithm test settings: threshold 140, no boost, scale 1, hard
threshold, auto-crop on, all paddings 1, opaque white background. -/
def classicSettings : Settings :=
  ⟨.classic, 140, 0, 1, 0, true, 1, 1, 1, 1, whiteColor, false⟩

/-- Adaptive-algorithm test settings (threshold 60, defaults otherwise). -/
def adaptiveSettings : Settings :=
  { classicSettings with algorithm := .adaptive, threshold := 60 }

/-- Classic test settings with transparent background. -/
def transparentSettings : Settings :=
  { classicSettings with isTransparent := true }

/-- Classic test settings with auto-crop off and scale 3/2. -/
def noCropSettings : Settings :=
  { classicSettings with autoCrop := false, scaleMultiplier := 3 / 2 }

/-- Test settings whose smoothness 21 lies outside the documented 0–20
range (auto-crop off, scale 1). -/
def outOfRangeSettings : Settings :=
  { classicSettings with autoCrop := false, smoothness := 21 }

/-- Mid-grey opaque test pixel (red value 120, inside the smoothness-21
transition band of threshold 140 but outside the smoothness-20 band). -/
def gray120 : Pixel := ⟨120, 120, 120, 255⟩

/-- The out-of-range settings with smoothness clamped back to the documented
maximum 20 (what a silently-clamping implementation would use). -/
def clampedSettings : Settings :=
  { outOfRangeSettings with smoothness := 20 }

/-- Classic test settings with scale 2 (integral scaled dimensions). -/
def scale2Settings : Settings :=
  { classicSettings with scaleMultiplier := 2 }

/-- The composited working buffer of the all-black 1 × 1 image under the
classic test settings. -/
def blackComposited : Img :=
  compositedBuffer (constResample blackPixel) (constBlur whitePixel)
    blackImg1 classicSettings

/-! Helper lemmas about the soft-threshold function. -/

theorem getSoftVal_of_smooth_zero (val t : ℚ) :
    getSoftVal val t 0 = if val < t then 0 else 255 := by
  simp [getSoftVal]

theorem getSoftVal_of_le_lower {smooth : ℚ} (val t : ℚ) (hs : 0 < smooth)
    (hv : val ≤ t - smooth) : getSoftVal val t smooth = 0 := by
  rw [getSoftVal, if_neg (by positivity), if_pos hv]

theorem getSoftVal_of_upper_le {smooth : ℚ} (val t : ℚ) (hs : 0 < smooth)
    (hv : t + smooth ≤ val) : getSoftVal val t smooth = 255 := by
  rw [getSoftVal, if_neg (by positivity)]
  simp only []
  rw [if_neg (by linarith), if_pos hv]

theorem getSoftVal_ramp {smooth : ℚ} (val t : ℚ) (hs : 0 < smooth)
    (h1 : t - smooth ≤ val) (h2 : val ≤ t + smooth) :
    getSoftVal val t smooth = (val - (t - smooth)) / (2 * smooth) * 255 := by
  rcases eq_or_lt_of_le h1 with h1 | h1
  · rw [getSoftVal_of_le_lower val t hs h1.symm.le, ← h1]
    simp
  rcases eq_or_lt_of_le h2 with h2 | h2
  · rw [getSoftVal_of_upper_le val t hs h2.ge, h2]
    rw [show t + smooth - (t - smooth) = 2 * smooth by ring,
      div_self (by positivity), one_mul]
  rw [getSoftVal, if_neg (by positivity)]
  simp only []
  rw [if_neg (by linarith), if_neg (by linarith),
    show t + smooth - (t - smooth) = 2 * smooth by ring]

theorem getSoftVal_nonneg {smooth : ℚ} (val t : ℚ) (hs : 0 ≤ smooth) :
    0 ≤ getSoftVal val t smooth := by
  rcases eq_or_lt_of_le hs with hs | hs
  · rw [← hs, getSoftVal_of_smooth_zero]
    split <;> norm_num
  rcases le_or_lt val (t - smooth) with h | h
  · rw [getSoftVal_of_le_lower val t hs h]
  rcases le_or_lt (t + smooth) val with h2 | h2
  · rw [getSoftVal_of_upper_le val t hs h2]
    norm_num
  rw [getSoftVal_ramp val t hs h.le h2.le]
  have : (0 : ℚ) ≤ (val - (t - smooth)) / (2 * smooth) :=
    div_nonneg (by linarith) (by positivity)
  positivity

theorem getSoftVal_le_255 {smooth : ℚ} (val t : ℚ) (hs : 0 ≤ smooth) :
    getSoftVal val t smooth ≤ 255 := by
  rcases eq_or_lt_of_le hs with hs | hs
  · rw [← hs, getSoftVal_of_smooth_zero]
    split <;> norm_num
  rcases le_or_lt val (t - smooth) with h | h
  · rw [getSoftVal_of_le_lower val t hs h]
    norm_num
  rcases le_or_lt (t + smooth) val with h2 | h2
  · rw [getSoftVal_of_upper_le val t hs h2]
  rw [getSoftVal_ramp val t hs h.le h2.le]
  have hr : (val - (t - smooth)) / (2 * smooth) ≤ 1 :=
    (div_le_one (by positivity)).2 (by linarith)
  nlinarith

theorem getSoftVal_mono {smooth : ℚ} (t : ℚ) (hs : 0 ≤ smooth) {v₁ v₂ : ℚ}
    (h : v₁ ≤ v₂) : getSoftVal v₁ t smooth ≤ getSoftVal v₂ t smooth := by
  rcases eq_or_lt_of_le hs with hs | hs
  · rw [← hs, getSoftVal_of_smooth_zero, getSoftVal_of_smooth_zero]
    rcases lt_or_le v₁ t with h1 | h1
    · rcases lt_or_le v₂ t with h2 | h2
      · rw [if_pos h1, if_pos h2]
      · rw [if_pos h1, if_neg (not_lt.2 h2)]
        norm_num
    · rw [if_neg (not_lt.2 h1), if_neg (not_lt.2 (le_trans h1 h))]
  rcases le_or_lt v₁ (t - smooth) with h1 | h1
  · rw [getSoftVal_of_le_lower v₁ t hs h1]
    exact getSoftVal_nonneg v₂ t hs.le
  rcases le_or_lt (t + smooth) v₂ with h2 | h2
  · rw [getSoftVal_of_upper_le v₂ t hs h2]
    exact getSoftVal_le_255 v₁ t hs.le
  rw [getSoftVal_ramp v₁ t hs h1.le (by linarith),
    getSoftVal_ramp v₂ t hs (by linarith) h2.le]
  gcongr

/-! Helper lemmas about the bounding-box scan. -/

theorem mem_scanCoords {w h x y : ℕ} : (x, y) ∈ scanCoords w h ↔ x < w ∧ y < h := by
  constructor
  · intro hm
    simp only [scanCoords, List.mem_flatMap, List.mem_map, List.mem_range] at hm
    obtain ⟨y', hy', x', hx', he⟩ := hm
    cases he
    exact ⟨hx', hy'⟩
  · rintro ⟨hx, hy⟩
    simp only [scanCoords, List.mem_flatMap, List.mem_map, List.mem_range]
    exact ⟨y, hy, x, hx, rfl⟩

theorem foldl_scanStep_minX (content : ℕ → ℕ → Bool) (l : List (ℕ × ℕ)) (acc : BBox) :
    (l.foldl (scanStep content) acc).minX
      = ((l.filter fun c => content c.1 c.2).foldl (fun m c => min c.1 m) acc.minX) := by
  induction l generalizing acc with
  | nil => rfl
  | cons c l ih => by_cases hc : content c.1 c.2 <;> simp [scanStep, hc, ih]

theorem foldl_scanStep_minY (content : ℕ → ℕ → Bool) (l : List (ℕ × ℕ)) (acc : BBox) :
    (l.foldl (scanStep content) acc).minY
      = ((l.filter fun c => content c.1 c.2).foldl (fun m c => min c.2 m) acc.minY) := by
  induction l generalizing acc with
  | nil => rfl
  | cons c l ih => by_cases hc : content c.1 c.2 <;> simp [scanStep, hc, ih]

theorem foldl_scanStep_maxX (content : ℕ → ℕ → Bool) (l : List (ℕ × ℕ)) (acc : BBox) :
    (l.foldl (scanStep content) acc).maxX
      = ((l.filter fun c => content c.1 c.2).foldl (fun m c => max c.1 m) acc.maxX) := by
  induction l generalizing acc with
  | nil => rfl
  | cons c l ih => by_cases hc : content c.1 c.2 <;> simp [scanStep, hc, ih]

theorem foldl_scanStep_maxY (content : ℕ → ℕ → Bool) (l : List (ℕ × ℕ)) (acc : BBox) :
    (l.foldl (scanStep content) acc).maxY
      = ((l.filter fun c => content c.1 c.2).foldl (fun m c => max c.2 m) acc.maxY) := by
  induction l generalizing acc with
  | nil => rfl
  | cons c l ih => by_cases hc : content c.1 c.2 <;> simp [scanStep, hc, ih]

theorem foldl_scanStep_hasContent (content : ℕ → ℕ → Bool) (l : List (ℕ × ℕ)) (acc : BBox) :
    (l.foldl (scanStep content) acc).hasContent
      = (acc.hasContent || l.any fun c => content c.1 c.2) := by
  induction l generalizing acc with
  | nil => simp
  | cons c l ih =>
    by_cases hc : content c.1 c.2 <;> simp [scanStep, hc, ih, Bool.or_assoc]

theorem foldl_min_le_init {α : Type} (key : α → ℕ) (l : List α) (a : ℕ) :
    l.foldl (fun m c => min (key c) m) a ≤ a := by
  induction l generalizing a with
  | nil => exact le_refl a
  | cons c l ih => exact le_trans (ih _) (min_le_right _ _)

theorem foldl_min_le_key {α : Type} (key : α → ℕ) (l : List α) (a : ℕ) {c : α}
    (hc : c ∈ l) : l.foldl (fun m c => min (key c) m) a ≤ key c := by
  induction l generalizing a with
  | nil => cases hc
  | cons d l ih =>
    rcases List.mem_cons.1 hc with rfl | hc
    · exact le_trans (foldl_min_le_init key l _) (min_le_left _ _)
    · exact ih _ hc

theorem foldl_min_eq_or {α : Type} (key : α → ℕ) (l : List α) (a : ℕ) :
    l.foldl (fun m c => min (key c) m) a = a
      ∨ ∃ c ∈ l, l.foldl (fun m c => min (key c) m) a = key c := by
  induction l generalizing a with
  | nil => exact Or.inl rfl
  | cons d l ih =>
    rcases ih (min (key d) a) with h | ⟨c, hc, h⟩
    · rcases min_choice (key d) a with hm | hm
      · exact Or.inr ⟨d, List.mem_cons_self d l, by rw [List.foldl_cons, h, hm]⟩
      · exact Or.inl (by rw [List.foldl_cons, h, hm])
    · exact Or.inr ⟨c, List.mem_cons_of_mem d hc, h⟩

theorem foldl_max_init_le {α : Type} (key : α → ℕ) (l : List α) (a : ℕ) :
    a ≤ l.foldl (fun m c => max (key c) m) a := by
  induction l generalizing a with
  | nil => exact le_refl a
  | cons c l ih => exact le_trans (le_max_right _ _) (ih _)

theorem foldl_max_key_le {α : Type} (key : α → ℕ) (l : List α) (a : ℕ) {c : α}
    (hc : c ∈ l) : key c ≤ l.foldl (fun m c => max (key c) m) a := by
  induction l generalizing a with
  | nil => cases hc
  | cons d l ih =>
    rcases List.mem_cons.1 hc with rfl | hc
    · exact le_trans (le_max_left _ _) (foldl_max_init_le key l _)
    · exact ih _ hc

theorem foldl_max_eq_or {α : Type} (key : α → ℕ) (l : List α) (a : ℕ) :
    l.foldl (fun m c => max (key c) m) a = a
      ∨ ∃ c ∈ l, l.foldl (fun m c => max (key c) m) a = key c := by
  induction l generalizing a with
  | nil => exact Or.inl rfl
  | cons d l ih =>
    rcases ih (max (key d) a) with h | ⟨c, hc, h⟩
    · rcases max_choice (key d) a with hm | hm
      · exact Or.inr ⟨d, List.mem_cons_self d l, by rw [List.foldl_cons, h, hm]⟩
      · exact Or.inl (by rw [List.foldl_cons, h, hm])
    · exact Or.inr ⟨c, List.mem_cons_of_mem d hc, h⟩

/-! Characterization of the bounding-box scan. -/

theorem mem_contentCoords {s : Settings} {bg : Color} {B : Img} {x y : ℕ} :
    (x, y) ∈ contentCoords s bg B ↔
      x < B.width ∧ y < B.height ∧ isContentPixel s bg (B.pix x y) = true := by
  simp only [contentCoords, List.mem_filter, mem_scanCoords, contentAt]
  tauto

theorem findContentBBox_minX (s : Settings) (bg : Color) (B : Img) :
    (findContentBBox s bg B).minX
      = (contentCoords s bg B).foldl (fun m c => min c.1 m) B.width := by
  rw [findContentBBox, foldl_scanStep_minX]
  rfl

theorem findContentBBox_minY (s : Settings) (bg : Color) (B : Img) :
    (findContentBBox s bg B).minY
      = (contentCoords s bg B).foldl (fun m c => min c.2 m) B.height := by
  rw [findContentBBox, foldl_scanStep_minY]
  rfl

theorem findContentBBox_maxX (s : Settings) (bg : Color) (B : Img) :
    (findContentBBox s bg B).maxX
      = (contentCoords s bg B).foldl (fun m c => max c.1 m) 0 := by
  rw [findContentBBox, foldl_scanStep_maxX]
  rfl

theorem findContentBBox_maxY (s : Settings) (bg : Color) (B : Img) :
    (findContentBBox s bg B).maxY
      = (contentCoords s bg B).foldl (fun m c => max c.2 m) 0 := by
  rw [findContentBBox, foldl_scanStep_maxY]
  rfl

theorem findContentBBox_hasContent (s : Settings) (bg : Color) (B : Img) :
    (findContentBBox s bg B).hasContent
      = (scanCoords B.width B.height).any fun c => contentAt s bg B c.1 c.2 := by
  rw [findContentBBox, foldl_scanStep_hasContent]
  simp

/-! Claim theorems. -/

/-- Claim C2: for every value, threshold and smoothness in 0–20, the
soft-threshold function returns the hard step when `smooth = 0`; for
`smooth > 0` it returns 0 below `t - smooth`, 255 above `t + smooth` and the
linear ramp in between; it is monotone non-decreasing in the value and its
result lies in [0, 255]. -/
theorem getSoftVal_behaviour (val t smooth : ℚ) (h0 : 0 ≤ smooth)
    (h20 : smooth ≤ 20) :
    (smooth = 0 →
      (val < t → getSoftVal val t smooth = 0)
      ∧ (t ≤ val → getSoftVal val t smooth = 255))
    ∧ (0 < smooth →
      (val ≤ t - smooth → getSoftVal val t smooth = 0)
      ∧ (t + smooth ≤ val → getSoftVal val t smooth = 255)
      ∧ (t - smooth ≤ val → val ≤ t + smooth →
          getSoftVal val t smooth = (val - (t - smooth)) / (2 * smooth) * 255))
    ∧ (∀ v₂, val ≤ v₂ → getSoftVal val t smooth ≤ getSoftVal v₂ t smooth)
    ∧ 0 ≤ getSoftVal val t smooth ∧ getSoftVal val t smooth ≤ 255 := by
  refine ⟨?_, ?_, ?_, getSoftVal_nonneg val t h0, getSoftVal_le_255 val t h0⟩
  · intro hz
    subst hz
    rw [getSoftVal_of_smooth_zero]
    exact ⟨fun hv => if_pos hv, fun hv => if_neg (not_lt.2 hv)⟩
  · intro hp
    exact ⟨fun hv => getSoftVal_of_le_lower val t hp hv,
      fun hv => getSoftVal_of_upper_le val t hp hv,
      fun h1 h2 => getSoftVal_ramp val t hp h1 h2⟩
  · exact fun v₂ hv => getSoftVal_mono t h0 hv

/-- Witness for C2 at `value = 100`, `t = 140`, `smooth = 5` (a value below
the transition band, so whiteness 0). -/
theorem getSoftVal_behaviour_witness : getSoftVal 100 140 5 = 0 := by
  have h := getSoftVal_behaviour 100 140 5 (by norm_num) (by norm_num)
  exact (h.2.1 (by norm_num)).1 (by norm_num)

/-- Claim C5: a pixel of the composited buffer counts as content exactly when
its alpha exceeds 10 (transparent mode) or the Manhattan distance of its RGB
from the background colour exceeds 30 (opaque mode); the scan reports
`hasContent = false` exactly when no pixel in bounds qualifies, and otherwise
returns the tightest axis-aligned bounding box over the qualifying pixels
(every content pixel lies inside the box and each of the four bounds is
attained by some content pixel). -/
theorem contentBBox_spec (s : Settings) (bg : Color) (B : Img) :
    (∀ p : Pixel,
      (s.isTransparent = true → (isContentPixel s bg p = true ↔ 10 < p.a))
      ∧ (s.isTransparent = false →
          (isContentPixel s bg p = true ↔
            30 < |p.r - (bg.r : ℚ)| + |p.g - (bg.g : ℚ)| + |p.b - (bg.b : ℚ)|)))
    ∧ ((findContentBBox s bg B).hasContent = false ↔
        ∀ x y, x < B.width → y < B.height →
          isContentPixel s bg (B.pix x y) = false)
    ∧ ((findContentBBox s bg B).hasContent = true →
        (∀ x y, x < B.width → y < B.height →
          isContentPixel s bg (B.pix x y) = true →
            (findContentBBox s bg B).minX ≤ x ∧ x ≤ (findContentBBox s bg B).maxX
            ∧ (findContentBBox s bg B).minY ≤ y ∧ y ≤ (findContentBBox s bg B).maxY)
        ∧ (∃ x y, x < B.width ∧ y < B.height
            ∧ isContentPixel s bg (B.pix x y) = true
            ∧ x = (findContentBBox s bg B).minX)
        ∧ (∃ x y, x < B.width ∧ y < B.height
            ∧ isContentPixel s bg (B.pix x y) = true
            ∧ x = (findContentBBox s bg B).maxX)
        ∧ (∃ x y, x < B.width ∧ y < B.height
            ∧ isContentPixel s bg (B.pix x y) = true
            ∧ y = (findContentBBox s bg B).minY)
        ∧ (∃ x y, x < B.width ∧ y < B.height
            ∧ isContentPixel s bg (B.pix x y) = true
            ∧ y = (findContentBBox s bg B).maxY)) := by
  refine ⟨?_, ?_, ?_⟩
  · intro p
    constructor <;> intro ht <;> simp [isContentPixel, ht]
  · rw [findContentBBox_hasContent]
    constructor
    · intro h x y hx hy
      have hm := List.any_eq_false.1 h (x, y) (mem_scanCoords.2 ⟨hx, hy⟩)
      simpa [contentAt] using hm
    · intro h
      apply List.any_eq_false.2
      rintro ⟨x, y⟩ hm
      have hb := mem_scanCoords.1 hm
      simp [contentAt, h x y hb.1 hb.2]
  · intro hhc
    have hex : ∃ c, c ∈ contentCoords s bg B := by
      rw [findContentBBox_hasContent] at hhc
      obtain ⟨c, hcm, hcc⟩ := List.any_eq_true.1 hhc
      exact ⟨c, List.mem_filter.2 ⟨hcm, hcc⟩⟩
    obtain ⟨⟨x₀, y₀⟩, hc₀⟩ := hex
    have hb₀ := mem_contentCoords.1 hc₀
    refine ⟨?_, ?_, ?_, ?_, ?_⟩
    · intro x y hx hy hcont
      have hmem : (x, y) ∈ contentCoords s bg B :=
        mem_contentCoords.2 ⟨hx, hy, hcont⟩
      refine ⟨?_, ?_, ?_, ?_⟩
      · rw [findContentBBox_minX]
        exact foldl_min_le_key (fun c : ℕ × ℕ => c.1) _ _ hmem
      · rw [findContentBBox_maxX]
        exact foldl_max_key_le (fun c : ℕ × ℕ => c.1) _ _ hmem
      · rw [findContentBBox_minY]
        exact foldl_min_le_key (fun c : ℕ × ℕ => c.2) _ _ hmem
      · rw [findContentBBox_maxY]
        exact foldl_max_key_le (fun c : ℕ × ℕ => c.2) _ _ hmem
    · rcases foldl_min_eq_or (fun c : ℕ × ℕ => c.1) (contentCoords s bg B) B.width
        with he | ⟨c, hcm, he⟩
      · exfalso
        have hle : (contentCoords s bg B).foldl (fun m c => min c.1 m) B.width ≤ x₀ :=
          foldl_min_le_key (fun c : ℕ × ℕ => c.1) _ _ hc₀
        rw [he] at hle
        exact absurd hb₀.1 (not_lt.2 hle)
      · obtain ⟨x, y⟩ := c
        have hb := mem_contentCoords.1 hcm
        exact ⟨x, y, hb.1, hb.2.1, hb.2.2, by rw [findContentBBox_minX, he]⟩
    · rcases foldl_max_eq_or (fun c : ℕ × ℕ => c.1) (contentCoords s bg B) 0
        with he | ⟨c, hcm, he⟩
      · refine ⟨x₀, y₀, hb₀.1, hb₀.2.1, hb₀.2.2, ?_⟩
        have hge : x₀ ≤ (contentCoords s bg B).foldl (fun m c => max c.1 m) 0 :=
          foldl_max_key_le (fun c : ℕ × ℕ => c.1) _ _ hc₀
        rw [he] at hge
        rw [findContentBBox_maxX, he]
        exact Nat.le_zero.1 hge
      · obtain ⟨x, y⟩ := c
        have hb := mem_contentCoords.1 hcm
        exact ⟨x, y, hb.1, hb.2.1, hb.2.2, by rw [findContentBBox_maxX, he]⟩
    · rcases foldl_min_eq_or (fun c : ℕ × ℕ => c.2) (contentCoords s bg B) B.height
        with he | ⟨c, hcm, he⟩
      · exfalso
        have hle : (contentCoords s bg B).foldl (fun m c => min c.2 m) B.height ≤ y₀ :=
          foldl_min_le_key (fun c : ℕ × ℕ => c.2) _ _ hc₀
        rw [he] at hle
        exact absurd hb₀.2.1 (not_lt.2 hle)
      · obtain ⟨x, y⟩ := c
        have hb := mem_contentCoords.1 hcm
        exact ⟨x, y, hb.1, hb.2.1, hb.2.2, by rw [findContentBBox_minY, he]⟩
    · rcases foldl_max_eq_or (fun c : ℕ × ℕ => c.2) (contentCoords s bg B) 0
        with he | ⟨c, hcm, he⟩
      · refine ⟨x₀, y₀, hb₀.1, hb₀.2.1, hb₀.2.2, ?_⟩
        have hge : y₀ ≤ (contentCoords s bg B).foldl (fun m c => max c.2 m) 0 :=
          foldl_max_key_le (fun c : ℕ × ℕ => c.2) _ _ hc₀
        rw [he] at hge
        rw [findContentBBox_maxY, he]
        exact Nat.le_zero.1 hge
      · obtain ⟨x, y⟩ := c
        have hb := mem_contentCoords.1 hcm
        exact ⟨x, y, hb.1, hb.2.1, hb.2.2, by rw [findContentBBox_maxY, he]⟩

/-- Witness for C5: on the composited all-black 1 × 1 test buffer the scan
finds content, and pixel (0, 0) lies inside the reported box. -/
theorem contentBBox_spec_witness :
    (findContentBBox classicSettings whiteColor blackComposited).minX ≤ 0
    ∧ 0 ≤ (findContentBBox classicSettings whiteColor blackComposited).maxX := by
  have h := contentBBox_spec classicSettings whiteColor blackComposited
  have hhc : (findContentBBox classicSettings whiteColor blackComposited).hasContent
      = true := by
    norm_num [findContentBBox, blackComposited, compositedBuffer, targetW, targetH,
      targetWidthQ, scaledHeightQ, scaleFactorQ, canvasDim, blackImg1, scanCoords,
      List.range_succ, scanStep, contentAt, isContentPixel, classicSettings,
      whiteColor, effectiveBg, compositePixel, whitenessOf, classicWhiteness,
      classicBoostedValue, getSoftVal, compositeFromWhiteness, scaledBuffer,
      constResample, constBlur, blackPixel, bgEstimateFn, whitePixel]
  have hc : isContentPixel classicSettings whiteColor (blackComposited.pix 0 0)
      = true := by
    norm_num [blackComposited, compositedBuffer, targetW, targetH,
      targetWidthQ, scaledHeightQ, scaleFactorQ, canvasDim, blackImg1,
      isContentPixel, classicSettings, whiteColor, effectiveBg, compositePixel,
      whitenessOf, classicWhiteness, classicBoostedValue, getSoftVal,
      compositeFromWhiteness, scaledBuffer, constResample, constBlur,
      blackPixel, bgEstimateFn, whitePixel]
  have hw : (0 : ℕ) < blackComposited.width := by
    norm_num [blackComposited, compositedBuffer, targetW, targetWidthQ,
      canvasDim, blackImg1, classicSettings]
  have hh : (0 : ℕ) < blackComposited.height := by
    norm_num [blackComposited, compositedBuffer, targetH, scaledHeightQ,
      scaleFactorQ, targetWidthQ, canvasDim, blackImg1, classicSettings]
  have hb := ((h.2.2 hhc).1) 0 0 hw hh hc
  exact ⟨hb.1, hb.2.1⟩

/-- Source-over compositing of pure-black pixels stays pure black in RGB. -/
theorem sourceOver_rgb_zero (dst src : Pixel)
    (hd : dst.r = 0 ∧ dst.g = 0 ∧ dst.b = 0)
    (hs : src.r = 0 ∧ src.g = 0 ∧ src.b = 0) :
    (sourceOver dst src).r = 0 ∧ (sourceOver dst src).g = 0
      ∧ (sourceOver dst src).b = 0 := by
  obtain ⟨hd1, hd2, hd3⟩ := hd
  obtain ⟨hs1, hs2, hs3⟩ := hs
  simp only [sourceOver]
  split
  · exact ⟨rfl, rfl, rfl⟩
  · refine ⟨?_, ?_, ?_⟩ <;> simp [hd1, hd2, hd3, hs1, hs2, hs3]

/-- Claim C3: in adaptive mode the whiteness of a pixel is the soft threshold
of the raw red value against `backgroundEstimate - (100 - threshold) / 2`:
the composite depends on the red channel only, and the contrast boost plays
no role. -/
theorem adaptive_whiteness_spec (s : Settings) (hs : s.algorithm = .adaptive)
    (bg : Color) (bgEstimate : ℚ) (p : Pixel) :
    compositePixel s bg bgEstimate p
      = compositeFromWhiteness s bg
          (getSoftVal p.r (bgEstimate - (100 - s.threshold) / 2) s.smoothness)
    ∧ (∀ q : Pixel, q.r = p.r →
        compositePixel s bg bgEstimate q = compositePixel s bg bgEstimate p)
    ∧ (∀ boost : ℚ,
        compositePixel { s with contrastBoost := boost } bg bgEstimate p
          = compositePixel s bg bgEstimate p) := by
  refine ⟨?_, ?_, ?_⟩
  · simp [compositePixel, whitenessOf, hs, adaptiveWhiteness]
  · intro q hq
    simp [compositePixel, whitenessOf, hq]
  · intro boost
    simp [compositePixel, whitenessOf, hs, adaptiveWhiteness,
      compositeFromWhiteness]

/-- Witness for C3 on the adaptive test settings, background estimate 200 and
a black pixel. -/
theorem adaptive_whiteness_spec_witness :
    compositePixel adaptiveSettings whiteColor 200 blackPixel
      = compositeFromWhiteness adaptiveSettings whiteColor
          (getSoftVal blackPixel.r (200 - (100 - adaptiveSettings.threshold) / 2)
            adaptiveSettings.smoothness) :=
  (adaptive_whiteness_spec adaptiveSettings rfl whiteColor 200 blackPixel).1

/-- Claim C6: in transparent mode every pixel of the processed output buffer
has RGB (0, 0, 0), and the compositor writes alpha `255 - whiteness`, in the
adaptive and classic paths alike. -/
theorem transparent_mode_spec (resample : Img → ℕ → ℕ → ℕ → ℕ → Pixel)
    (blur : ℚ → Img → ℕ → ℕ → ℕ → ℕ → Pixel) (img : Img) (s : Settings)
    (ht : s.isTransparent = true) :
    (∀ x y,
      ((processResult resample blur img s).processed.pix x y).r = 0
      ∧ ((processResult resample blur img s).processed.pix x y).g = 0
      ∧ ((processResult resample blur img s).processed.pix x y).b = 0)
    ∧ (∀ (bg : Color) (bgEstimate : ℚ) (p : Pixel),
        compositePixel s bg bgEstimate p
          = ⟨0, 0, 0, 255 - whitenessOf s bgEstimate p.r⟩) := by
  have hcompose : ∀ (bg : Color) (bgEstimate : ℚ) (p : Pixel),
      compositePixel s bg bgEstimate p
        = ⟨0, 0, 0, 255 - whitenessOf s bgEstimate p.r⟩ := by
    intro bg bgEstimate p
    simp [compositePixel, compositeFromWhiteness, ht]
  refine ⟨?_, hcompose⟩
  have hfill : fillPixel s (effectiveBg s) = ⟨0, 0, 0, 0⟩ := by
    simp [fillPixel, ht]
  have hcomp : ∀ a b : ℕ,
      ((compositedBuffer resample blur img s).pix a b).r = 0
      ∧ ((compositedBuffer resample blur img s).pix a b).g = 0
      ∧ ((compositedBuffer resample blur img s).pix a b).b = 0 := by
    intro a b
    simp [compositedBuffer, hcompose]
  intro x y
  simp only [processResult]
  split
  · split
    · simp only [assembleCropped]
      split
      · exact sourceOver_rgb_zero _ _ (by rw [hfill]; exact ⟨rfl, rfl, rfl⟩)
          (hcomp _ _)
      · rw [hfill]
        exact ⟨rfl, rfl, rfl⟩
    · exact hcomp x y
  · exact hcomp x y

/-- Witness for C6 on the transparent test settings: the compositor output on
a black pixel with background estimate 0. -/
theorem transparent_mode_spec_witness :
    compositePixel transparentSettings whiteColor 0 blackPixel
      = ⟨0, 0, 0, 255 - whitenessOf transparentSettings 0 blackPixel.r⟩ :=
  (transparent_mode_spec (constResample blackPixel) (constBlur whitePixel)
    blackImg1 transparentSettings rfl).2 whiteColor 0 blackPixel

/-- Claim C1: on every decoded source image and settings the pipeline
succeeds, and the two returned buffers have identical width and identical
height — whichever of the three paths (no auto-crop, auto-crop with content,
auto-crop fallback) was taken. -/
theorem process_dims_invariant (resample : Img → ℕ → ℕ → ℕ → ℕ → Pixel)
    (blur : ℚ → Img → ℕ → ℕ → ℕ → ℕ → Pixel) (img : Img) (s : Settings) :
    ∃ r : ProcessResult, process resample blur img s = Except.ok r
      ∧ r.processed.width = r.croppedOriginal.width
      ∧ r.processed.height = r.croppedOriginal.height := by
  refine ⟨processResult resample blur img s, rfl, ?_, ?_⟩ <;>
    (simp only [processResult]
     split
     · split <;> rfl
     · rfl)

/-- Counterexample to C7 as stated: with a 1 × 1 source and scale 3/2 the
output width is 1 — the canvas dimension truncates 1.5 — while the claim's
`round(origW·scale)` is 2. -/
theorem dims_round_counterexample :
    (processResult (constResample whitePixel) (constBlur whitePixel) whiteImg1
        noCropSettings).processed.width
      ≠ (round ((whiteImg1.width : ℚ) * noCropSettings.scaleMultiplier)).toNat := by
  have h1 : (processResult (constResample whitePixel) (constBlur whitePixel)
      whiteImg1 noCropSettings).processed.width = 1 := by
    norm_num [processResult, compositedBuffer, targetW, targetWidthQ, canvasDim,
      whiteImg1, noCropSettings, classicSettings]
  have h2 : (round ((whiteImg1.width : ℚ) * noCropSettings.scaleMultiplier)).toNat
      = 2 := by
    norm_num [whiteImg1, noCropSettings, classicSettings, round_eq]
    rfl
  rw [h1, h2]
  norm_num

/-- Claim C7 amended: with `autoCrop = false` both output buffers have the
dimensions `trunc(origW·scale) × trunc(origH·scale)` (canvas dimension
assignment truncates toward zero rather than rounding), and scale 1
reproduces the original dimensions exactly. -/
theorem dims_no_crop_spec (resample : Img → ℕ → ℕ → ℕ → ℕ → Pixel)
    (blur : ℚ → Img → ℕ → ℕ → ℕ → ℕ → Pixel) (img : Img) (s : Settings)
    (hw : 0 < img.width) (_hsc : 0 ≤ s.scaleMultiplier)
    (hc : s.autoCrop = false) :
    ((processResult resample blur img s).processed.width
        = (⌊(img.width : ℚ) * s.scaleMultiplier⌋).toNat
      ∧ (processResult resample blur img s).processed.height
        = (⌊(img.height : ℚ) * s.scaleMultiplier⌋).toNat
      ∧ (processResult resample blur img s).croppedOriginal.width
        = (⌊(img.width : ℚ) * s.scaleMultiplier⌋).toNat
      ∧ (processResult resample blur img s).croppedOriginal.height
        = (⌊(img.height : ℚ) * s.scaleMultiplier⌋).toNat)
    ∧ (s.scaleMultiplier = 1 →
        (processResult resample blur img s).processed.width = img.width
        ∧ (processResult resample blur img s).processed.height = img.height) := by
  have hw0 : ((img.width : ℚ)) ≠ 0 := Nat.cast_ne_zero.2 hw.ne'
  have hkey : scaledHeightQ img s = (img.height : ℚ) * s.scaleMultiplier := by
    unfold scaledHeightQ scaleFactorQ targetWidthQ
    rw [mul_comm ((img.width : ℚ)) s.scaleMultiplier,
      mul_div_assoc, div_self hw0, mul_one]
  have hres : processResult resample blur img s
      = ⟨compositedBuffer resample blur img s, scaledBuffer resample img s⟩ := by
    simp [processResult, hc]
  have hWidth : (processResult resample blur img s).processed.width
      = (⌊(img.width : ℚ) * s.scaleMultiplier⌋).toNat := by
    rw [hres]
    rfl
  have hHeight : (processResult resample blur img s).processed.height
      = (⌊(img.height : ℚ) * s.scaleMultiplier⌋).toNat := by
    rw [hres]
    show canvasDim (scaledHeightQ img s) = _
    rw [hkey]
    rfl
  have hWidth2 : (processResult resample blur img s).croppedOriginal.width
      = (⌊(img.width : ℚ) * s.scaleMultiplier⌋).toNat := by
    rw [hres]
    rfl
  have hHeight2 : (processResult resample blur img s).croppedOriginal.height
      = (⌊(img.height : ℚ) * s.scaleMultiplier⌋).toNat := by
    rw [hres]
    show canvasDim (scaledHeightQ img s) = _
    rw [hkey]
    rfl
  refine ⟨⟨hWidth, hHeight, hWidth2, hHeight2⟩, ?_⟩
  intro h1
  rw [hWidth, hHeight, h1]
  norm_num

/-- Witness for C7's amended statement at the 1 × 1 white image with scale
3/2 and auto-crop off: the processed width is `⌊3/2⌋ = 1`. -/
theorem dims_no_crop_spec_witness :
    (processResult (constResample whitePixel) (constBlur whitePixel) whiteImg1
        noCropSettings).processed.width
      = (⌊(whiteImg1.width : ℚ) * noCropSettings.scaleMultiplier⌋).toNat :=
  (dims_no_crop_spec (constResample whitePixel) (constBlur whitePixel)
    whiteImg1 noCropSettings (by norm_num [whiteImg1])
    (by norm_num [noCropSettings, classicSettings]) rfl).1.1

/-- Claim C8: with auto-crop on and no content found, processing succeeds and
returns the full composited buffer and the full pristine rescaled buffer,
both at the unchanged full-frame dimensions. -/
theorem no_content_fallback (resample : Img → ℕ → ℕ → ℕ → ℕ → Pixel)
    (blur : ℚ → Img → ℕ → ℕ → ℕ → ℕ → Pixel) (img : Img) (s : Settings)
    (hc : s.autoCrop = true)
    (hb : (findContentBBox s (effectiveBg s)
        (compositedBuffer resample blur img s)).hasContent = false) :
    process resample blur img s
      = Except.ok ⟨compositedBuffer resample blur img s, scaledBuffer resample img s⟩
    ∧ (compositedBuffer resample blur img s).width = targetW img s
    ∧ (compositedBuffer resample blur img s).height = targetH img s
    ∧ (scaledBuffer resample img s).width = targetW img s
    ∧ (scaledBuffer resample img s).height = targetH img s := by
  refine ⟨?_, rfl, rfl, rfl, rfl⟩
  simp [process, processResult, hc, hb]

/-- Witness for C8 on the all-white 1 × 1 image under the classic settings
(no pixel qualifies as content). -/
theorem no_content_fallback_witness :
    process (constResample whitePixel) (constBlur whitePixel) whiteImg1
        classicSettings
      = Except.ok ⟨compositedBuffer (constResample whitePixel)
          (constBlur whitePixel) whiteImg1 classicSettings,
          scaledBuffer (constResample whitePixel) whiteImg1 classicSettings⟩ :=
  (no_content_fallback (constResample whitePixel) (constBlur whitePixel)
    whiteImg1 classicSettings rfl
    (by norm_num [findContentBBox, compositedBuffer, targetW, targetH,
      targetWidthQ, scaledHeightQ, scaleFactorQ, canvasDim, whiteImg1,
      scanCoords, List.range_succ, scanStep, contentAt, isContentPixel,
      classicSettings, whiteColor, effectiveBg, compositePixel, whitenessOf,
      classicWhiteness, classicBoostedValue, getSoftVal,
      compositeFromWhiteness, scaledBuffer, constResample, constBlur,
      whitePixel, bgEstimateFn])).1

/-- Counterexample to C9 as stated: the settings with smoothness 21 (outside
the documented 0–20 range) are not rejected — `process` does not return an
`InvalidSettings` error on them. -/
theorem no_invalidSettings_error :
    process (constResample gray120) (constBlur whitePixel) whiteImg1
        outOfRangeSettings
      ≠ Except.error ProcessingError.invalidSettings := by
  simp [process]

/-- Claim C9 amended: the pipeline performs no settings validation: every
settings value, in range or not, is accepted and used exactly as given —
it is not clamped either, as the out-of-range smoothness 21 produces an
output pixel different from the one produced under the range-clamped
smoothness 20. -/
theorem no_validation_spec :
    (∀ (resample : Img → ℕ → ℕ → ℕ → ℕ → Pixel)
        (blur : ℚ → Img → ℕ → ℕ → ℕ → ℕ → Pixel) (img : Img) (s : Settings),
        ∃ r, process resample blur img s = Except.ok r)
    ∧ (processResult (constResample gray120) (constBlur whitePixel) whiteImg1
          outOfRangeSettings).processed.pix 0 0
        ≠ (processResult (constResample gray120) (constBlur whitePixel)
            whiteImg1 clampedSettings).processed.pix 0 0 := by
  constructor
  · intro resample blur img s
    exact ⟨processResult resample blur img s, rfl⟩
  · have h1 : (processResult (constResample gray120) (constBlur whitePixel)
        whiteImg1 outOfRangeSettings).processed.pix 0 0
        = ⟨255 / 42, 255 / 42, 255 / 42, 255⟩ := by
      norm_num [processResult, compositedBuffer, targetW, targetH, targetWidthQ,
        scaledHeightQ, scaleFactorQ, canvasDim, whiteImg1, outOfRangeSettings,
        classicSettings, effectiveBg, compositePixel, whitenessOf,
        classicWhiteness, classicBoostedValue, getSoftVal,
        compositeFromWhiteness, scaledBuffer, constResample, constBlur,
        gray120, bgEstimateFn, whitePixel, whiteColor]
    have h2 : (processResult (constResample gray120) (constBlur whitePixel)
        whiteImg1 clampedSettings).processed.pix 0 0
        = ⟨0, 0, 0, 255⟩ := by
      norm_num [processResult, compositedBuffer, targetW, targetH, targetWidthQ,
        scaledHeightQ, scaleFactorQ, canvasDim, whiteImg1, clampedSettings,
        outOfRangeSettings, classicSettings, effectiveBg, compositePixel,
        whitenessOf, classicWhiteness, classicBoostedValue, getSoftVal,
        compositeFromWhiteness, scaledBuffer, constResample, constBlur,
        gray120, bgEstimateFn, whitePixel, whiteColor]
    rw [h1, h2]
    norm_num [Pixel.mk.injEq]

/-- Claim C10: under the precondition that `origW·scale` and `origH·scale`
are integers, every index `(y·targetWidth + x)·4 + c` used by the per-pixel
loops (for `x < targetWidth`, `y < scaledHeight`, `c ≤ 3`, with the loop
bounds being the JavaScript numbers) lies within the pixel data array.  Two
closed facts illustrate the fractional case the precondition excludes: with
`targetWidth = 4/3` the raw index at `(0, 1)` is not an integer, and with
`targetWidth = 9/2`, `scaledHeight = 15/2` the integer raw index at `(4, 6)`
is 124, beyond the 112-sample array `getImageData` actually returns. -/
theorem scan_index_bounds (img : Img) (s : Settings)
    (hW : targetWidthQ img s = (targetW img s : ℚ))
    (hH : scaledHeightQ img s = (targetH img s : ℚ)) :
    (∀ x y c : ℕ, (x : ℚ) < targetWidthQ img s →
      (y : ℚ) < scaledHeightQ img s → c ≤ 3 →
      pixelIndex (targetW img s) x y + c
        < imageDataLength (targetW img s) (targetH img s))
    ∧ (¬ ∃ n : ℤ, jsScanIndex (4 / 3) 0 1 = (n : ℚ))
    ∧ (jsScanIndex (9 / 2) 4 6 = 124
        ∧ imageDataLength (canvasDim (9 / 2)) (canvasDim (15 / 2)) = 112) := by
  refine ⟨?_, ?_, ?_, ?_⟩
  · intro x y c hx hy hc
    rw [hW, Nat.cast_lt] at hx
    rw [hH, Nat.cast_lt] at hy
    unfold pixelIndex imageDataLength
    have h1 : y * targetW img s + x < targetH img s * targetW img s := by
      calc y * targetW img s + x < y * targetW img s + targetW img s := by omega
        _ = (y + 1) * targetW img s := by ring
        _ ≤ targetH img s * targetW img s := Nat.mul_le_mul_right _ hy
    nlinarith
  · rintro ⟨n, hn⟩
    have h16 : (16 : ℚ) / 3 = (n : ℚ) := by
      rw [← hn]
      norm_num [jsScanIndex]
    have h3 : (16 : ℚ) = 3 * (n : ℚ) := by linarith
    have h3z : (16 : ℤ) = 3 * n := by exact_mod_cast h3
    omega
  · norm_num [jsScanIndex]
  · norm_num [imageDataLength, canvasDim]
    rfl

/-- Witness for C10 on the 2 × 1 white image at scale 2 (target 4 × 2): the
index of channel 3 of pixel (3, 1) is 31, within the 32-sample array. -/
theorem scan_index_bounds_witness :
    pixelIndex (targetW whiteImg2x1 scale2Settings) 3 1 + 3
      < imageDataLength (targetW whiteImg2x1 scale2Settings)
          (targetH whiteImg2x1 scale2Settings) :=
  (scan_index_bounds whiteImg2x1 scale2Settings
      (by norm_num [targetWidthQ, targetW, canvasDim, whiteImg2x1,
        scale2Settings, classicSettings]; simp)
      (by norm_num [scaledHeightQ, scaleFactorQ, targetWidthQ, targetH,
        canvasDim, whiteImg2x1, scale2Settings, classicSettings]; simp)).1 3 1 3
    (by norm_num [targetWidthQ, whiteImg2x1, scale2Settings, classicSettings])
    (by norm_num [scaledHeightQ, scaleFactorQ, targetWidthQ, whiteImg2x1,
      scale2Settings, classicSettings])
    (by norm_num)

/-- Claim C4: with auto-crop on and content found, both outputs are built by
the same allocate-fill-blit sequence with the one shared bounding box: both
buffers measure `(contentW + paddingLeft + paddingRight) × (contentH +
paddingTop + paddingBottom)`, are filled with the background colour (or
cleared to transparent), and carry the bounding-box region blitted at offset
`(paddingLeft, paddingTop)` — from the composited buffer into the processed
output and from the pristine rescaled buffer into the cropped original. -/
theorem autoCrop_assembly_spec (resample : Img → ℕ → ℕ → ℕ → ℕ → Pixel)
    (blur : ℚ → Img → ℕ → ℕ → ℕ → ℕ → Pixel) (img : Img) (s : Settings)
    (hc : s.autoCrop = true)
    (hb : (findContentBBox s (effectiveBg s)
        (compositedBuffer resample blur img s)).hasContent = true) :
    (processResult resample blur img s
      = ⟨assembleCropped s (effectiveBg s) (compositedBuffer resample blur img s)
            (findContentBBox s (effectiveBg s) (compositedBuffer resample blur img s)),
         assembleCropped s (effectiveBg s) (scaledBuffer resample img s)
            (findContentBBox s (effectiveBg s) (compositedBuffer resample blur img s))⟩)
    ∧ (∀ (src : Img) (box : BBox),
        (assembleCropped s (effectiveBg s) src box).width
            = (box.maxX - box.minX + 1) + s.paddingLeft + s.paddingRight
        ∧ (assembleCropped s (effectiveBg s) src box).height
            = (box.maxY - box.minY + 1) + s.paddingTop + s.paddingBottom
        ∧ (∀ dx dy, dx < box.maxX - box.minX + 1 → dy < box.maxY - box.minY + 1 →
            (assembleCropped s (effectiveBg s) src box).pix
                (s.paddingLeft + dx) (s.paddingTop + dy)
              = sourceOver (fillPixel s (effectiveBg s))
                  (src.pix (box.minX + dx) (box.minY + dy)))
        ∧ (∀ x y,
            (x < s.paddingLeft ∨ s.paddingLeft + (box.maxX - box.minX + 1) ≤ x
              ∨ y < s.paddingTop ∨ s.paddingTop + (box.maxY - box.minY + 1) ≤ y) →
            (assembleCropped s (effectiveBg s) src box).pix x y
              = fillPixel s (effectiveBg s)))
    ∧ (s.isTransparent = false →
        fillPixel s (effectiveBg s)
          = ⟨((effectiveBg s).r : ℚ), ((effectiveBg s).g : ℚ),
              ((effectiveBg s).b : ℚ), 255⟩)
    ∧ (s.isTransparent = true → fillPixel s (effectiveBg s) = ⟨0, 0, 0, 0⟩) := by
  refine ⟨?_, ?_, ?_, ?_⟩
  · simp [processResult, hc, hb]
  · intro src box
    refine ⟨rfl, rfl, ?_, ?_⟩
    · intro dx dy hdx hdy
      show (if s.paddingLeft ≤ s.paddingLeft + dx
            ∧ s.paddingLeft + dx < s.paddingLeft + (box.maxX - box.minX + 1)
            ∧ s.paddingTop ≤ s.paddingTop + dy
            ∧ s.paddingTop + dy < s.paddingTop + (box.maxY - box.minY + 1) then
          sourceOver (fillPixel s (effectiveBg s))
            (src.pix (box.minX + (s.paddingLeft + dx - s.paddingLeft))
              (box.minY + (s.paddingTop + dy - s.paddingTop)))
        else fillPixel s (effectiveBg s)) = _
      rw [if_pos ⟨Nat.le_add_right _ _, by omega, Nat.le_add_right _ _, by omega⟩]
      have e1 : s.paddingLeft + dx - s.paddingLeft = dx := by omega
      have e2 : s.paddingTop + dy - s.paddingTop = dy := by omega
      rw [e1, e2]
    · intro x y hout
      show (if s.paddingLeft ≤ x ∧ x < s.paddingLeft + (box.maxX - box.minX + 1)
            ∧ s.paddingTop ≤ y ∧ y < s.paddingTop + (box.maxY - box.minY + 1) then
          sourceOver (fillPixel s (effectiveBg s))
            (src.pix (box.minX + (x - s.paddingLeft)) (box.minY + (y - s.paddingTop)))
        else fillPixel s (effectiveBg s)) = _
      rw [if_neg]
      rintro ⟨h1, h2, h3, h4⟩
      rcases hout with h | h | h | h <;> omega
  · intro ht
    simp [fillPixel, ht]
  · intro ht
    simp [fillPixel, ht]

/-- Witness for C4 on the all-black 1 × 1 image under the classic settings
(content found at (0, 0)): the pipeline result equals the pair of assembled
crops sharing one bounding box. -/
theorem autoCrop_assembly_spec_witness :
    processResult (constResample blackPixel) (constBlur whitePixel) blackImg1
        classicSettings
      = ⟨assembleCropped classicSettings (effectiveBg classicSettings)
            (compositedBuffer (constResample blackPixel) (constBlur whitePixel)
              blackImg1 classicSettings)
            (findContentBBox classicSettings (effectiveBg classicSettings)
              (compositedBuffer (constResample blackPixel) (constBlur whitePixel)
                blackImg1 classicSettings)),
         assembleCropped classicSettings (effectiveBg classicSettings)
            (scaledBuffer (constResample blackPixel) blackImg1 classicSettings)
            (findContentBBox classicSettings (effectiveBg classicSettings)
              (compositedBuffer (constResample blackPixel) (constBlur whitePixel)
                blackImg1 classicSettings))⟩ :=
  (autoCrop_assembly_spec (constResample blackPixel) (constBlur whitePixel)
    blackImg1 classicSettings rfl
    (by norm_num [findContentBBox, compositedBuffer, targetW, targetH,
      targetWidthQ, scaledHeightQ, scaleFactorQ, canvasDim, blackImg1,
      scanCoords, List.range_succ, scanStep, contentAt, isContentPixel,
      classicSettings, whiteColor, effectiveBg, compositePixel, whitenessOf,
      classicWhiteness, classicBoostedValue, getSoftVal,
      compositeFromWhiteness, scaledBuffer, constResample, constBlur,
      blackPixel, bgEstimateFn, whitePixel])).1

end MusicScoreTool
